import Mathlib

/-!
# MediFind — verification of the consultation-booking core and local state cache

Shallow embedding of the repository's core logic:

* the local application state cache (`src/store`): search history, favorites,
  reminders, hydration from the persistent key-value store;
* the consultation booking transaction (`src/services/consultationService.ts`):
  slot reservation with Firestore-transaction semantics, error surfacing,
  status updates, cancellation;
* the local notification scheduler's consultation reminder
  (`scheduleConsultationReminder`).

JS `Date` values are modelled as `Int` epoch milliseconds; Firestore document
collections are modelled as association lists keyed by document id; a thrown
JS `Error` is modelled as `Except String` carrying the error message verbatim.
-/

set_option linter.unusedVariables false

deriving instance DecidableEq for Except

namespace MediFind

/-! ## Local data model (`src/store` and `src/types/consultation`) -/

/-- `Medicine` from the store: local-only search/favorite record. -/
structure Medicine where
  id : String
  name : String
  description : String
  ingredients : List String
  uses : String
  sideEffects : String
  dosage : String
  warnings : String
  timestamp : Nat
  isFavorite : Option Bool := none
deriving DecidableEq

/-- Reminder frequency enum from the store. -/
inductive Frequency where
  | daily
  | twice
  | thrice
  | custom
deriving DecidableEq

/-- `Reminder` from the store: local-only medication reminder. -/
structure Reminder where
  id : String
  medicineName : String
  time : Int
  frequency : Frequency
  notes : Option String := none
  enabled : Bool
deriving DecidableEq

/-- `ConsultationStatus` from `src/types/consultation`. -/
inductive ConsultationStatus where
  | scheduled
  | ongoing
  | completed
  | cancelled
deriving DecidableEq

/-- `Consultation` from `src/types/consultation` (timestamps elided;
`scheduledTime` is epoch milliseconds). -/
structure Consultation where
  id : String
  patientId : String
  patientName : String
  doctorId : String
  doctorName : String
  doctorSpecialization : String
  scheduledTime : Int
  duration : Nat
  status : ConsultationStatus
  consultationFee : Nat
  agoraChannelName : String
  symptoms : Option String := none
  notes : Option String := none
  prescriptionId : Option String := none
deriving DecidableEq

/-- `TimeSlot` from `src/types/consultation`. -/
structure TimeSlot where
  startTime : String
  endTime : String
  isBooked : Bool
  consultationId : Option String := none
deriving DecidableEq

/-- `DoctorAvailability` from `src/types/consultation` (timestamps elided). -/
structure DoctorAvailability where
  id : String
  doctorId : String
  date : String
  slots : List TimeSlot
deriving DecidableEq

/-- `Doctor` from `src/types/consultation` (rating kept as an integer scale,
timestamps elided; no claim depends on the numeric type of `rating`). -/
structure Doctor where
  id : String
  name : String
  email : String
  phone : String
  specialization : String
  experience : Nat
  qualifications : List String
  rating : Int
  totalConsultations : Nat
  consultationFee : Nat
  languages : List String
  verified : Bool
deriving DecidableEq

/-- `User` from `src/types/consultation` (optional medical metadata elided to
the fields the core reads). -/
structure User where
  id : String
  name : String
  email : String
  phone : String
  fcmToken : Option String := none
deriving DecidableEq

/-- One prescribed medication line from `src/types/consultation`. -/
structure Medication where
  name : String
  dosage : String
  frequency : String
  duration : String
  instructions : String
deriving DecidableEq

/-- `Prescription` from `src/types/consultation` (timestamps elided). -/
structure Prescription where
  id : String
  consultationId : String
  patientId : String
  doctorId : String
  doctorName : String
  medications : List Medication
  diagnosis : String
  advice : String
  followUpDate : Option Int := none
deriving DecidableEq

/-- `BookingData` from `src/types/consultation`. -/
structure BookingData where
  doctorId : String
  doctorName : String
  doctorSpecialization : String
  patientId : String
  patientName : String
  scheduledTime : Int
  consultationFee : Nat
  symptoms : Option String := none
  notes : Option String := none
deriving DecidableEq

/-! ## Application State Cache (`useStore` in `src/store`)

The in-memory zustand state tree. Each mutator below mirrors the body of the
corresponding store action; the synchronous `AsyncStorage` write that follows
each `set` persists the same value the mutator computes, so the in-memory
field is the authoritative model of both. -/

/-- The store's collections (loading flags, chat messages and the active
consultation carry no claim and are elided). -/
structure StoreState where
  isDarkMode : Bool
  searchHistory : List Medicine
  favorites : List Medicine
  reminders : List Reminder
  currentUser : Option User
  doctors : List Doctor
  consultations : List Consultation
  prescriptions : List Prescription
deriving DecidableEq

/-- The store's initial state (`useStore` creation defaults). -/
def initialStoreState : StoreState :=
  { isDarkMode := false
    searchHistory := []
    favorites := []
    reminders := []
    currentUser := none
    doctors := []
    consultations := []
    prescriptions := [] }

/-- `addToHistory`: drop any entry with the same id, prepend, keep last 50. -/
def addToHistory (st : StoreState) (m : Medicine) : StoreState :=
  { st with searchHistory :=
      (m :: st.searchHistory.filter (fun x => x.id != m.id)).take 50 }

/-- `clearHistory`: empty the search history. -/
def clearHistory (st : StoreState) : StoreState :=
  { st with searchHistory := [] }

/-- `toggleFavorite`: `findIndex` on the id decides between removing every
entry with that id and appending the medicine with its favorite flag set. -/
def toggleFavorite (st : StoreState) (m : Medicine) : StoreState :=
  if st.favorites.any (fun f => f.id == m.id) then
    { st with favorites := st.favorites.filter (fun f => f.id != m.id) }
  else
    { st with favorites := st.favorites ++ [{ m with isFavorite := some true }] }

/-- `addReminder`: append. -/
def addReminder (st : StoreState) (r : Reminder) : StoreState :=
  { st with reminders := st.reminders ++ [r] }

/-- A `Partial<Reminder>`: present fields overwrite, absent fields are kept. -/
structure ReminderUpdate where
  id : Option String := none
  medicineName : Option String := none
  time : Option Int := none
  frequency : Option Frequency := none
  notes : Option (Option String) := none
  enabled : Option Bool := none
deriving DecidableEq

/-- JS spread merge of a `Partial<Reminder>` over a `Reminder`. -/
def applyReminderUpdate (r : Reminder) (u : ReminderUpdate) : Reminder :=
  { id := u.id.getD r.id
    medicineName := u.medicineName.getD r.medicineName
    time := u.time.getD r.time
    frequency := u.frequency.getD r.frequency
    notes := u.notes.getD r.notes
    enabled := u.enabled.getD r.enabled }

/-- `updateReminder`: shallow-merge the update into the reminder with the
matching id, leaving the others untouched. -/
def updateReminder (st : StoreState) (id : String) (u : ReminderUpdate) :
    StoreState :=
  { st with reminders :=
      st.reminders.map (fun r => if r.id == id then applyReminderUpdate r u else r) }

/-- `deleteReminder`: remove every reminder with the given id. -/
def deleteReminder (st : StoreState) (id : String) : StoreState :=
  { st with reminders := st.reminders.filter (fun r => r.id != id) }

/-- Sequential `addToHistory` of a list of medicines. -/
def addAllToHistory (st : StoreState) (ms : List Medicine) : StoreState :=
  ms.foldl addToHistory st

/-! ## Remote Document Collections and the Booking Transaction Protocol
(`src/services/consultationService.ts`)

Firestore is modelled as two collections: `availability` as an association
list keyed by the composite document id `${doctorId}_${date}`, and
`consultations` as a list of documents with unique ids. `runTransaction` is
atomic: either every write inside it commits or none does, which is exactly
the contract of the Firestore primitive the code uses. -/

/-- The remote Firestore state the booking protocol reads and writes. -/
structure RemoteState where
  availability : List (String × DoctorAvailability)
  consultations : List Consultation
deriving DecidableEq

/-- The composite availability document id: `` `${doctorId}_${date}` ``. -/
def availabilityDocId (doctorId date : String) : String :=
  doctorId ++ "_" ++ date

/-- `firestore().collection('availability').doc(docId).get()`:
first entry with the matching key. -/
def lookupAvailability (st : RemoteState) (docId : String) :
    Option DoctorAvailability :=
  (st.availability.find? (fun kv => kv.1 == docId)).map (fun kv => kv.2)

/-- Replace the document stored under `docId` (the transaction only updates a
document it has just read, so the key is present). -/
def setAvailability :
    List (String × DoctorAvailability) → String → DoctorAvailability →
      List (String × DoctorAvailability)
  | [], _, _ => []
  | kv :: rest, docId, av =>
    if kv.1 == docId then (docId, av) :: rest
    else kv :: setAvailability rest docId av

/-- `transaction.set(consultationRef, consultation)`: create-or-replace the
document stored under `c.id` (Firestore collections are keyed by id; list
order carries no meaning). -/
def setConsultationDoc (cs : List Consultation) (c : Consultation) :
    List Consultation :=
  c :: cs.filter (fun x => x.id != c.id)

/-- Error message thrown when the slot's booked flag is already set. -/
def slotAlreadyBookedMsg : String := "This slot has already been booked"

/-- Error message thrown when the availability document is absent. -/
def availabilityNotFoundMsg : String := "Availability not found"

/-- Error message thrown when no slot matches the requested start time. -/
def slotNotFoundMsg : String := "Time slot not found"

/-- The generic error `bookConsultation` surfaces for every failure other
than `slotAlreadyBookedMsg`. -/
def bookingFailedMsg : String := "Failed to book consultation. Please try again."

/-- Message standing for a transaction-commit failure reported by the
substrate (any message distinct from the three logical ones). -/
def commitFailedMsg : String := "Transaction failed"

/-- The consultation record `bookConsultation` constructs before the
transaction: duration fixed at 30, status `scheduled`, channel name
`consultation_<id>`. -/
def mkConsultation (bd : BookingData) (cid : String) : Consultation :=
  { id := cid
    patientId := bd.patientId
    patientName := bd.patientName
    doctorId := bd.doctorId
    doctorName := bd.doctorName
    doctorSpecialization := bd.doctorSpecialization
    scheduledTime := bd.scheduledTime
    duration := 30
    status := ConsultationStatus.scheduled
    consultationFee := bd.consultationFee
    agoraChannelName := "consultation_" ++ cid
    symptoms := bd.symptoms
    notes := bd.notes
    prescriptionId := none }

/-- The slot mutation inside the transaction: `findIndex` on the start time,
reject a missing slot, reject a booked slot, otherwise mark the first
matching slot booked and attach the consultation id. The recursion walks to
the first slot whose `startTime` matches, exactly as `findIndex` does. -/
def bookSlots : List TimeSlot → String → String → Except String (List TimeSlot)
  | [], _, _ => Except.error slotNotFoundMsg
  | s :: rest, startTime, cid =>
    if s.startTime == startTime then
      if s.isBooked then Except.error slotAlreadyBookedMsg
      else Except.ok ({ s with isBooked := true, consultationId := some cid } :: rest)
    else
      match bookSlots rest startTime cid with
      | Except.ok rest2 => Except.ok (s :: rest2)
      | Except.error e => Except.error e

/-- The body of `firestore().runTransaction` in `bookConsultation`, plus the
commit: read the availability document, mutate the slot list, and on success
commit both the availability update and the new consultation document
together. `commitOk` models the substrate accepting or failing the commit;
a failed commit applies no write. -/
def bookTransaction (st : RemoteState) (bd : BookingData)
    (selectedSlot : TimeSlot) (selectedDate : String) (cid : String)
    (commitOk : Bool) : Except String RemoteState :=
  match lookupAvailability st (availabilityDocId bd.doctorId selectedDate) with
  | none => Except.error availabilityNotFoundMsg
  | some av =>
    match bookSlots av.slots selectedSlot.startTime cid with
    | Except.error e => Except.error e
    | Except.ok slots2 =>
      if commitOk then
        Except.ok
          { availability := setAvailability st.availability
              (availabilityDocId bd.doctorId selectedDate) { av with slots := slots2 }
            consultations := setConsultationDoc st.consultations (mkConsultation bd cid) }
      else Except.error commitFailedMsg

/-- `bookConsultation`: run the transaction and map the error — the
slot-already-booked message is rethrown verbatim, everything else collapses
to the generic retry message. On success the populated consultation is
returned alongside the committed state. -/
def bookConsultation (st : RemoteState) (bd : BookingData)
    (selectedSlot : TimeSlot) (selectedDate : String) (cid : String)
    (commitOk : Bool) : Except String (RemoteState × Consultation) :=
  match bookTransaction st bd selectedSlot selectedDate cid commitOk with
  | Except.ok st2 => Except.ok (st2, mkConsultation bd cid)
  | Except.error msg =>
    if msg == slotAlreadyBookedMsg then Except.error msg
    else Except.error bookingFailedMsg

/-- The remote state after a `bookConsultation` call: the committed state on
success, the unchanged state on failure (the transaction aborts atomically). -/
def bookResultState (st : RemoteState) (bd : BookingData)
    (selectedSlot : TimeSlot) (selectedDate : String) (cid : String)
    (commitOk : Bool) : RemoteState :=
  match bookConsultation st bd selectedSlot selectedDate cid commitOk with
  | Except.ok r => r.1
  | Except.error _ => st

/-- The first slot whose start time matches, as `findIndex` locates it. -/
def firstSlotWith (slots : List TimeSlot) (startTime : String) :
    Option TimeSlot :=
  slots.find? (fun s => s.startTime == startTime)

/-- Whether the slot the booking protocol would locate for
`(doctorId, date, startTime)` currently has its booked flag set. -/
def slotBooked (st : RemoteState) (doctorId date startTime : String) : Bool :=
  match lookupAvailability st (availabilityDocId doctorId date) with
  | none => false
  | some av =>
    match firstSlotWith av.slots startTime with
    | none => false
    | some s => s.isBooked

/-- One booking attempt: the inputs of a `bookConsultation` call, the fresh
document id Firestore allocates, and whether the substrate commits. -/
structure Attempt where
  bd : BookingData
  selectedSlot : TimeSlot
  selectedDate : String
  cid : String
  commitOk : Bool
deriving DecidableEq

/-- The attempt addresses the `(doctorId, date, startTime)` slot. -/
def attemptTargets (a : Attempt) (doctorId date startTime : String) : Prop :=
  a.bd.doctorId = doctorId ∧ a.selectedDate = date ∧
    a.selectedSlot.startTime = startTime

instance (a : Attempt) (d dt stt : String) :
    Decidable (attemptTargets a d dt stt) := by
  unfold attemptTargets; infer_instance

/-- Run a sequence of booking attempts one after another, as the
transactional substrate serializes them; collect each attempt's outcome. -/
def runAttempts :
    RemoteState → List Attempt → RemoteState × List (Except String Consultation)
  | st, [] => (st, [])
  | st, a :: rest =>
    match bookConsultation st a.bd a.selectedSlot a.selectedDate a.cid a.commitOk with
    | Except.ok (st2, c) =>
      let r := runAttempts st2 rest
      (r.1, Except.ok c :: r.2)
    | Except.error e =>
      let r := runAttempts st rest
      (r.1, Except.error e :: r.2)

/-- Consultation `c` holds the `(doctorId, date, startTime)` slot: it is a
document of the collection and some slot of that day's availability record
with that start time is booked under its id. -/
def holdsSlot (st : RemoteState) (c : Consultation)
    (doctorId date startTime : String) : Prop :=
  c ∈ st.consultations ∧
    ∃ av, lookupAvailability st (availabilityDocId doctorId date) = some av ∧
      ∃ s ∈ av.slots, s.startTime = startTime ∧ s.isBooked = true ∧
        s.consultationId = some c.id

/-- Outcome test for an attempt. -/
def isOkResult : Except String Consultation → Bool
  | Except.ok _ => true
  | Except.error _ => false

/-- Number of successful attempts among a list of outcomes. -/
def successCount (rs : List (Except String Consultation)) : Nat :=
  (rs.filter isOkResult).length

/-- Error message of `updateConsultationStatus`'s catch block. -/
def updateStatusFailedMsg : String := "Failed to update consultation status."

/-- Error message of `cancelConsultation`'s catch block. -/
def cancelFailedMsg : String := "Failed to cancel consultation."

/-- `updateConsultationStatus`: unconditional `update({status})` on the
document with the given id; Firestore rejects the update when the document
is absent, which the catch block converts to the generic message. -/
def updateConsultationStatus (st : RemoteState) (cid : String)
    (status : ConsultationStatus) : Except String RemoteState :=
  if st.consultations.any (fun c => c.id == cid) then
    Except.ok { st with consultations :=
      st.consultations.map (fun c => if c.id == cid then { c with status := status } else c) }
  else Except.error updateStatusFailedMsg

/-- `cancelConsultation`: `updateConsultationStatus(id, 'cancelled')` with
its own catch block. -/
def cancelConsultation (st : RemoteState) (cid : String) :
    Except String RemoteState :=
  match updateConsultationStatus st cid ConsultationStatus.cancelled with
  | Except.ok st2 => Except.ok st2
  | Except.error _ => Except.error cancelFailedMsg

/-- Run a sequence of `cancelConsultation` calls; a failed call leaves the
remote state unchanged. -/
def runCancels : RemoteState → List String → RemoteState
  | st, [] => st
  | st, cid :: rest =>
    match cancelConsultation st cid with
    | Except.ok st2 => runCancels st2 rest
    | Except.error _ => runCancels st rest

/-- Status of the consultation document with the given id, if present. -/
def statusOf (st : RemoteState) (cid : String) : Option ConsultationStatus :=
  (st.consultations.find? (fun c => c.id == cid)).map (fun c => c.status)

/-! ## Notification Scheduler (`scheduleConsultationReminder`) -/

/-- One hour in milliseconds: `setHours(getHours() - 1)` on a JS `Date`
shifts the epoch-millisecond value down by exactly this amount. -/
def hourMs : Int := 3600000

/-- A locally scheduled notification. -/
structure ScheduledNotification where
  id : String
  title : String
  fireTime : Int
  consultationId : String
deriving DecidableEq

/-- `scheduleConsultationReminder`: schedule one hour before the
consultation's scheduled time, only when that instant is still in the
future; the consultation's status is not inspected. -/
def scheduleConsultationReminder (c : Consultation) (now : Int) :
    Option ScheduledNotification :=
  let reminderTime := c.scheduledTime - hourMs
  if reminderTime > now then
    some { id := "consultation-reminder-" ++ c.id
           title := "Consultation Reminder"
           fireTime := reminderTime
           consultationId := c.id }
  else none

/-! ## Hydration (`hydrate` in the store)

`hydrate` reads the eight persisted keys with `Promise.all`, then issues one
`set` whose field values are `key ? JSON.parse(key) : default`. All of this
sits inside a single `try`/`catch`: an absent key takes its default, but a
present value on which `JSON.parse` throws aborts the construction of the
whole `set` argument, so no field is assigned and the catch block merely
logs. Deserialization is modelled by decoder functions returning `none`
exactly where `JSON.parse` would throw. -/

/-- The persistent store's eight known keys (`AsyncStorage.getItem` results:
`none` is an absent key). -/
structure RawStorage where
  theme : Option String := none
  searchHistory : Option String := none
  favorites : Option String := none
  reminders : Option String := none
  currentUser : Option String := none
  doctors : Option String := none
  consultations : Option String := none
  prescriptions : Option String := none
deriving DecidableEq

/-- `JSON.parse` plus the implicit cast to each key's expected shape;
`none` models a thrown parse error. -/
structure JsonDecoders where
  decodeBool : String → Option Bool
  decodeMedicines : String → Option (List Medicine)
  decodeReminders : String → Option (List Reminder)
  decodeUser : String → Option User
  decodeDoctors : String → Option (List Doctor)
  decodeConsultations : String → Option (List Consultation)
  decodePrescriptions : String → Option (List Prescription)

/-- One `key ? JSON.parse(key) : default` expression: an absent key yields
the default, a present key must decode or the whole expression throws. -/
def parseKey {α : Type} (decode : String → Option α) (raw : Option String)
    (dflt : α) : Option α :=
  match raw with
  | none => some dflt
  | some s => decode s

/-- The field values of the single `set` call in `hydrate`; `none` when any
present key failed to decode and the construction threw. -/
structure HydratedFields where
  isDarkMode : Bool
  searchHistory : List Medicine
  favorites : List Medicine
  reminders : List Reminder
  currentUser : Option User
  doctors : List Doctor
  consultations : List Consultation
  prescriptions : List Prescription
deriving DecidableEq

/-- Evaluate every `key ? JSON.parse(key) : default` of the `set` argument;
the first decode failure aborts the whole construction. -/
def hydrateFields (d : JsonDecoders) (raw : RawStorage) :
    Option HydratedFields :=
  (parseKey d.decodeBool raw.theme false).bind fun theme =>
  (parseKey d.decodeMedicines raw.searchHistory []).bind fun history =>
  (parseKey d.decodeMedicines raw.favorites []).bind fun favorites =>
  (parseKey d.decodeReminders raw.reminders []).bind fun reminders =>
  (parseKey (fun s => (d.decodeUser s).map some) raw.currentUser none).bind fun currentUser =>
  (parseKey d.decodeDoctors raw.doctors []).bind fun doctors =>
  (parseKey d.decodeConsultations raw.consultations []).bind fun consultations =>
  (parseKey d.decodePrescriptions raw.prescriptions []).bind fun prescriptions =>
  some { isDarkMode := theme
         searchHistory := history
         favorites := favorites
         reminders := reminders
         currentUser := currentUser
         doctors := doctors
         consultations := consultations
         prescriptions := prescriptions }

/-- `hydrate`: apply the `set` when every present key decoded; otherwise the
catch block swallows the error and the state is left as it was. Never
raises to the caller. -/
def hydrate (d : JsonDecoders) (raw : RawStorage) (st : StoreState) :
    StoreState :=
  match hydrateFields d raw with
  | some f =>
    { st with isDarkMode := f.isDarkMode
              searchHistory := f.searchHistory
              favorites := f.favorites
              reminders := f.reminders
              currentUser := f.currentUser
              doctors := f.doctors
              consultations := f.consultations
              prescriptions := f.prescriptions }
  | none => st

/-! ## Concrete fixtures

Small concrete values used by the witnesses and counterexamples. -/

/-- A minimal medicine with the given id. -/
def med (i : String) : Medicine :=
  { id := i
    name := i
    description := ""
    ingredients := []
    uses := ""
    sideEffects := ""
    dosage := ""
    warnings := ""
    timestamp := 0
    isFavorite := none }

/-- Concrete decoders standing in for `JSON.parse` at the literals the
witnesses use: the boolean literals and the empty array decode, everything
else throws. -/
def parseBoolLit (s : String) : Option Bool :=
  if s == "true" then some true
  else if s == "false" then some false
  else none

/-- Decoder of the empty JSON array literal; anything else throws. -/
def parseEmptyList {α : Type} (s : String) : Option (List α) :=
  if s == "[]" then some [] else none

/-- Decoder that always throws (no literal of interest decodes to a user). -/
def parseNoUser (s : String) : Option User := none

/-- The decoder bundle used at concrete inputs. -/
def litDecoders : JsonDecoders :=
  { decodeBool := parseBoolLit
    decodeMedicines := parseEmptyList
    decodeReminders := parseEmptyList
    decodeUser := parseNoUser
    decodeDoctors := parseEmptyList
    decodeConsultations := parseEmptyList
    decodePrescriptions := parseEmptyList }

/-- The 09:00–09:30 unbooked slot of the spec's concrete scenario. -/
def demoSlot : TimeSlot :=
  { startTime := "09:00", endTime := "09:30", isBooked := false, consultationId := none }

/-- One-day availability record for doctor `d1` on `2025-11-29`. -/
def demoAvailability : DoctorAvailability :=
  { id := "d1_2025-11-29", doctorId := "d1", date := "2025-11-29", slots := [demoSlot] }

/-- Remote state holding only that availability record. -/
def demoRemote : RemoteState :=
  { availability := [("d1_2025-11-29", demoAvailability)], consultations := [] }

/-- Booking data of patient `p1` for that slot. -/
def demoBooking : BookingData :=
  { doctorId := "d1"
    doctorName := "D"
    doctorSpecialization := "Cardiology"
    patientId := "p1"
    patientName := "P"
    scheduledTime := 1764406800000
    consultationFee := 500
    symptoms := none
    notes := none }

/-- A second patient's booking data for the identical slot. -/
def demoBooking2 : BookingData :=
  { demoBooking with patientId := "p2", patientName := "Q" }

/-- Patient A's attempt, then patient B's attempt, on the same slot. -/
def demoAttempts : List Attempt :=
  [ { bd := demoBooking, selectedSlot := demoSlot, selectedDate := "2025-11-29",
      cid := "cons1", commitOk := true },
    { bd := demoBooking2, selectedSlot := demoSlot, selectedDate := "2025-11-29",
      cid := "cons2", commitOk := true } ]

/-- A consultation document that is already cancelled. -/
def demoCancelled : Consultation :=
  { id := "c1"
    patientId := "p1"
    patientName := "P"
    doctorId := "d1"
    doctorName := "D"
    doctorSpecialization := "Cardiology"
    scheduledTime := hourMs + 1
    duration := 30
    status := ConsultationStatus.cancelled
    consultationFee := 500
    agoraChannelName := "consultation_c1"
    symptoms := none
    notes := none
    prescriptionId := none }

/-- Remote state holding only the cancelled consultation. -/
def demoRemoteCancelled : RemoteState :=
  { availability := [], consultations := [demoCancelled] }

/-! ## Supporting lemmas: search history and favorites -/

theorem addToHistory_searchHistory (st : StoreState) (m : Medicine) :
    (addToHistory st m).searchHistory
      = (m :: st.searchHistory.filter (fun x => x.id != m.id)).take 50 := rfl

theorem addToHistory_len_le (st : StoreState) (m : Medicine) :
    (addToHistory st m).searchHistory.length ≤ 50 := by
  rw [addToHistory_searchHistory, List.length_take]
  exact min_le_left _ _

theorem addAll_cons (st : StoreState) (m : Medicine) (ms : List Medicine) :
    addAllToHistory st (m :: ms) = addAllToHistory (addToHistory st m) ms := rfl

theorem addAll_append (st : StoreState) (ms : List Medicine) (m : Medicine) :
    addAllToHistory st (ms ++ [m]) = addToHistory (addAllToHistory st ms) m := by
  simp [addAllToHistory, List.foldl_append]

theorem addAll_len_le (st : StoreState) (ms : List Medicine) (h : ms ≠ []) :
    (addAllToHistory st ms).searchHistory.length ≤ 50 := by
  induction ms generalizing st with
  | nil => exact absurd rfl h
  | cons m rest ih =>
    cases rest with
    | nil => exact addToHistory_len_le st m
    | cons b bs => exact ih (addToHistory st m) (by simp)

theorem filter_id_ne_length (l : List Medicine) (i : String)
    (hn : (l.map Medicine.id).Nodup) (hm : i ∈ l.map Medicine.id) :
    (l.filter (fun x => x.id != i)).length + 1 = l.length := by
  induction l with
  | nil => simp at hm
  | cons m rest ih =>
    simp only [List.map_cons, List.nodup_cons] at hn
    obtain ⟨hnm, hrest⟩ := hn
    by_cases h : m.id = i
    · subst h
      have hr : rest.filter (fun x => x.id != m.id) = rest := by
        rw [List.filter_eq_self]
        intro x hx
        simp only [bne_iff_ne, ne_eq]
        intro heq
        exact hnm (heq ▸ List.mem_map_of_mem Medicine.id hx)
      simp [List.filter_cons, hr]
    · have hm' : i ∈ rest.map Medicine.id := by
        rcases List.mem_cons.mp hm with h1 | h1
        · exact absurd h1.symm h
        · exact h1
      have hrec := ih hrest hm'
      have hcond : (m.id != i) = true := by simp [bne_iff_ne, h]
      simp only [List.filter_cons, hcond, if_true, List.length_cons]
      omega

theorem mem_filter_id_map (l : List Medicine) (i j : String) :
    i ∈ (l.filter (fun x => x.id != j)).map Medicine.id
      ↔ i ∈ l.map Medicine.id ∧ i ≠ j := by
  simp only [List.mem_map, List.mem_filter, bne_iff_ne, ne_eq, decide_not,
    Bool.not_eq_eq_eq_not, Bool.not_true, decide_eq_false_iff_not]
  constructor
  · rintro ⟨x, ⟨hx, hne⟩, rfl⟩
    exact ⟨⟨x, hx, rfl⟩, hne⟩
  · rintro ⟨⟨x, hx, rfl⟩, hne⟩
    exact ⟨x, ⟨hx, hne⟩, rfl⟩

theorem addAll_take_eq_reverse (ms : List Medicine) :
    ∀ st : StoreState, (ms.map Medicine.id).Nodup → ms.length ≤ 50 →
      (addAllToHistory st ms).searchHistory.take ms.length = ms.reverse := by
  induction ms using List.reverseRecOn with
  | nil =>
    intro st _ _
    simp [addAllToHistory]
  | append_singleton ms m ih =>
    intro st hn hlen
    have hlen1 : ms.length + 1 ≤ 50 := by simpa using hlen
    have hn' : (ms.map Medicine.id).Nodup ∧ m.id ∉ ms.map Medicine.id := by
      rw [List.map_append, List.nodup_append] at hn
      refine ⟨hn.1, fun hmem => hn.2.2 hmem (by simp)⟩
    obtain ⟨hn1, hmn⟩ := hn'
    have ihh := ih st hn1 (by omega)
    rw [addAll_append, addToHistory_searchHistory]
    have hsplit : (addAllToHistory st ms).searchHistory
        = ms.reverse ++ (addAllToHistory st ms).searchHistory.drop ms.length := by
      conv_lhs => rw [← List.take_append_drop ms.length (addAllToHistory st ms).searchHistory]
      rw [ihh]
    have hrevfilter : ms.reverse.filter (fun x => x.id != m.id) = ms.reverse := by
      rw [List.filter_eq_self]
      intro x hx
      simp only [bne_iff_ne, ne_eq]
      intro he
      exact hmn (he ▸ List.mem_map_of_mem Medicine.id (List.mem_reverse.mp hx))
    have hfilter : (addAllToHistory st ms).searchHistory.filter (fun x => x.id != m.id)
        = ms.reverse ++ ((addAllToHistory st ms).searchHistory.drop ms.length).filter
            (fun x => x.id != m.id) := by
      conv_lhs => rw [hsplit]
      rw [List.filter_append, hrevfilter]
    rw [hfilter]
    have hlen2 : (ms ++ [m]).length = ms.length + 1 := by simp
    rw [hlen2, List.take_take, min_eq_left hlen1, List.take_succ_cons]
    have htake : (ms.reverse
        ++ ((addAllToHistory st ms).searchHistory.drop ms.length).filter
            (fun x => x.id != m.id)).take ms.length = ms.reverse := by
      conv_lhs => rw [← List.length_reverse ms]
      exact List.take_left _ _
    rw [htake]
    simp

theorem addAll_51_eq (st : StoreState) (ms : List Medicine)
    (hn : (ms.map Medicine.id).Nodup) (h51 : ms.length = 51) :
    (addAllToHistory st ms).searchHistory = ms.reverse.take 50 := by
  have hne : ms ≠ [] := by
    intro h
    rw [h] at h51
    simp at h51
  obtain ⟨ms', mlast, heq⟩ : ∃ ms' mlast, ms = ms' ++ [mlast] :=
    ⟨ms.dropLast, ms.getLast hne, (List.dropLast_append_getLast hne).symm⟩
  subst heq
  have hlen' : ms'.length = 50 := by
    simp only [List.length_append, List.length_singleton] at h51
    omega
  have hn' : (ms'.map Medicine.id).Nodup ∧ mlast.id ∉ ms'.map Medicine.id := by
    rw [List.map_append, List.nodup_append] at hn
    refine ⟨hn.1, fun hmem => hn.2.2 hmem (by simp)⟩
  obtain ⟨hn1, hmn⟩ := hn'
  have hne' : ms' ≠ [] := by
    intro h
    rw [h] at hlen'
    simp at hlen'
  have hprev : (addAllToHistory st ms').searchHistory = ms'.reverse := by
    have ht := addAll_take_eq_reverse ms' st hn1 (by omega)
    have hl := addAll_len_le st ms' hne'
    calc (addAllToHistory st ms').searchHistory
        = (addAllToHistory st ms').searchHistory.take 50 :=
          (List.take_of_length_le hl).symm
      _ = (addAllToHistory st ms').searchHistory.take ms'.length := by rw [hlen']
      _ = ms'.reverse := ht
  rw [addAll_append, addToHistory_searchHistory, hprev]
  have hfilt : ms'.reverse.filter (fun x => x.id != mlast.id) = ms'.reverse := by
    rw [List.filter_eq_self]
    intro x hx
    simp only [bne_iff_ne, ne_eq]
    intro he
    exact hmn (he ▸ List.mem_map_of_mem Medicine.id (List.mem_reverse.mp hx))
  rw [hfilt]
  simp [List.reverse_append]

/-! ## Claims about the Application State Cache -/

/-- C5: for every search-history state and every medicine, `addToHistory`
removes any existing entry with the same identity, prepends the new entry,
and truncates to at most 50 entries; after adding 51 distinct medicines the
history holds exactly 50 entries most-recent first; re-adding an existing
identity moves it to the front without duplicating it or growing the list. -/
theorem addToHistory_spec (st : StoreState) (m : Medicine) (ms : List Medicine)
    (hms : (ms.map Medicine.id).Nodup) (h51 : ms.length = 51)
    (hn : (st.searchHistory.map Medicine.id).Nodup)
    (hmem : m.id ∈ st.searchHistory.map Medicine.id)
    (hlen : st.searchHistory.length ≤ 50) :
    ((addToHistory st m).searchHistory.length ≤ 50 ∧
      (addToHistory st m).searchHistory.head? = some m ∧
      ∀ x ∈ (addToHistory st m).searchHistory,
        x = m ∨ (x ∈ st.searchHistory ∧ x.id ≠ m.id)) ∧
    ((addAllToHistory st ms).searchHistory = ms.reverse.take 50 ∧
      (addAllToHistory st ms).searchHistory.length = 50) ∧
    ((addToHistory st m).searchHistory.length = st.searchHistory.length ∧
      ((addToHistory st m).searchHistory.filter (fun x => x.id == m.id)).length = 1 ∧
      ∀ i : String, i ∈ (addToHistory st m).searchHistory.map Medicine.id
        ↔ i ∈ st.searchHistory.map Medicine.id) := by
  have hflen := filter_id_ne_length st.searchHistory m.id hn hmem
  have hlistlen : (m :: st.searchHistory.filter (fun x => x.id != m.id)).length ≤ 50 := by
    simp only [List.length_cons]
    omega
  have htake : (m :: st.searchHistory.filter (fun x => x.id != m.id)).take 50
      = m :: st.searchHistory.filter (fun x => x.id != m.id) :=
    List.take_of_length_le hlistlen
  refine ⟨⟨addToHistory_len_le st m, ?_, ?_⟩, ⟨addAll_51_eq st ms hms h51, ?_⟩, ?_, ?_, ?_⟩
  · rw [addToHistory_searchHistory, htake]
    rfl
  · intro x hx
    rw [addToHistory_searchHistory] at hx
    have hx' := (List.take_sublist 50 _).subset hx
    rcases List.mem_cons.mp hx' with h1 | h1
    · exact Or.inl h1
    · have := List.mem_filter.mp h1
      exact Or.inr ⟨this.1, by simpa [bne_iff_ne] using this.2⟩
  · rw [addAll_51_eq st ms hms h51]
    simp [List.length_take, h51]
  · rw [addToHistory_searchHistory, htake]
    simp only [List.length_cons]
    omega
  · rw [addToHistory_searchHistory, htake]
    have hnil : (st.searchHistory.filter (fun x => x.id != m.id)).filter
        (fun x => x.id == m.id) = [] := by
      rw [List.filter_eq_nil_iff]
      intro a ha
      have := (List.mem_filter.mp ha).2
      simpa [bne_iff_ne] using this
    simp [List.filter_cons, hnil]
  · intro i
    rw [addToHistory_searchHistory, htake]
    simp only [List.map_cons, List.mem_cons]
    rw [mem_filter_id_map]
    constructor
    · rintro (rfl | ⟨hi, _⟩)
      · exact hmem
      · exact hi
    · intro hi
      by_cases hcase : i = m.id
      · exact Or.inl hcase
      · exact Or.inr ⟨hi, hcase⟩

/-- The 51 pairwise-distinct medicines of the history-cap scenario. -/
def fiftyOneMeds : List Medicine := (List.range 51).map (fun n => med (toString n))

/-- A one-entry history state containing medicine `x`. -/
def histState : StoreState := { initialStoreState with searchHistory := [med "x"] }

/-- Witness for C5 at a concrete state: 51 distinct adds leave exactly 50
entries, and re-adding the present medicine keeps the length unchanged. -/
theorem addToHistory_spec_witness :
    (addAllToHistory histState fiftyOneMeds).searchHistory.length = 50 ∧
    (addToHistory histState (med "x")).searchHistory.length
      = histState.searchHistory.length :=
  ⟨(addToHistory_spec histState (med "x") fiftyOneMeds (by decide) (by decide)
      (by decide) (by decide) (by decide)).2.1.2,
   (addToHistory_spec histState (med "x") fiftyOneMeds (by decide) (by decide)
      (by decide) (by decide) (by decide)).2.2.1⟩

/-- C6 counterexample: in the favorites state `[a, a]` holding two entries
with the same identity, toggling that identity twice ends with one entry —
the double toggle does not return the collection to its original size, so
the claim fails on a state with duplicated identities. -/
theorem toggleFavorite_twice_size_cx :
    (toggleFavorite (toggleFavorite
        { initialStoreState with favorites := [med "a", med "a"] } (med "a"))
      (med "a")).favorites.length = 1 ∧
    ({ initialStoreState with favorites := [med "a", med "a"] } : StoreState).favorites.length = 2 := by
  decide

/-- C6 (amended): in every favorites state whose entries carry pairwise
distinct identities — the invariant every favorites operation of the store
preserves — toggling the same medicine twice returns the favorites
collection to its original size and to its original membership of
identities. -/
theorem toggleFavorite_twice (st : StoreState) (m : Medicine)
    (hn : (st.favorites.map Medicine.id).Nodup) :
    (toggleFavorite (toggleFavorite st m) m).favorites.length = st.favorites.length ∧
    ∀ i : String, i ∈ (toggleFavorite (toggleFavorite st m) m).favorites.map Medicine.id
      ↔ i ∈ st.favorites.map Medicine.id := by
  by_cases h : st.favorites.any (fun f => f.id == m.id) = true
  · have h1 : toggleFavorite st m
        = { st with favorites := st.favorites.filter (fun f => f.id != m.id) } := by
      unfold toggleFavorite
      rw [if_pos h]
    have hmem : m.id ∈ st.favorites.map Medicine.id := by
      obtain ⟨f, hf, hfe⟩ := List.any_eq_true.mp h
      exact (beq_iff_eq.mp hfe) ▸ List.mem_map_of_mem Medicine.id hf
    have h2 : (st.favorites.filter (fun f => f.id != m.id)).any
        (fun f => f.id == m.id) = false := by
      rw [List.any_eq_false]
      intro f hf
      have := (List.mem_filter.mp hf).2
      simpa [bne_iff_ne] using this
    have h3 : toggleFavorite (toggleFavorite st m) m
        = { st with favorites := st.favorites.filter (fun f => f.id != m.id)
              ++ [{ m with isFavorite := some true }] } := by
      rw [h1]
      unfold toggleFavorite
      rw [if_neg (by rw [h2]; exact Bool.false_ne_true)]
    rw [h3]
    constructor
    · simp only [List.length_append, List.length_singleton]
      have := filter_id_ne_length st.favorites m.id hn hmem
      omega
    · intro i
      simp only [List.map_append, List.mem_append, List.map_singleton,
        List.mem_singleton]
      rw [mem_filter_id_map]
      constructor
      · rintro (⟨hi, _⟩ | hi)
        · exact hi
        · rw [hi]
          exact hmem
      · intro hi
        by_cases hcase : i = m.id
        · exact Or.inr hcase
        · exact Or.inl ⟨hi, hcase⟩
  · have h1 : toggleFavorite st m
        = { st with favorites := st.favorites ++ [{ m with isFavorite := some true }] } := by
      unfold toggleFavorite
      rw [if_neg h]
    have h2 : (st.favorites ++ [{ m with isFavorite := some true }]).any
        (fun f => f.id == m.id) = true := by
      simp [List.any_append]
    have hfself : st.favorites.filter (fun f => f.id != m.id) = st.favorites := by
      rw [List.filter_eq_self]
      intro f hf
      have hne : ¬(f.id == m.id) = true := by
        intro hc
        exact h (List.any_eq_true.mpr ⟨f, hf, hc⟩)
      simpa [bne_iff_ne] using fun he => hne (beq_iff_eq.mpr he)
    have h3 : toggleFavorite (toggleFavorite st m) m = { st with favorites := st.favorites } := by
      rw [h1]
      unfold toggleFavorite
      rw [if_pos h2]
      congr 1
      simp [List.filter_append, hfself]
    rw [h3]
    exact ⟨rfl, fun i => Iff.rfl⟩

/-- Witness for C6 (amended) at a concrete state: favorites `[a]`, toggling
`a` twice preserves length and identity membership. -/
theorem toggleFavorite_twice_witness :
    (toggleFavorite (toggleFavorite
        { initialStoreState with favorites := [med "a"] } (med "a"))
      (med "a")).favorites.length
      = ({ initialStoreState with favorites := [med "a"] } : StoreState).favorites.length ∧
    ∀ i : String,
      i ∈ (toggleFavorite (toggleFavorite
          { initialStoreState with favorites := [med "a"] } (med "a"))
        (med "a")).favorites.map Medicine.id
      ↔ i ∈ ({ initialStoreState with favorites := [med "a"] } : StoreState).favorites.map Medicine.id :=
  toggleFavorite_twice { initialStoreState with favorites := [med "a"] } (med "a")
    (by decide)

/-- C10: every mutating cache operation touches only its own collection:
`addToHistory` and `clearHistory` leave favorites, reminders, doctors,
consultations and prescriptions unchanged; `toggleFavorite` leaves the
search history and reminders unchanged; `addReminder`, `updateReminder` and
`deleteReminder` leave the search history and favorites unchanged. -/
theorem store_mutators_frame (st : StoreState) (m : Medicine) (r : Reminder)
    (rid : String) (u : ReminderUpdate) :
    ((addToHistory st m).favorites = st.favorites ∧
      (addToHistory st m).reminders = st.reminders ∧
      (addToHistory st m).doctors = st.doctors ∧
      (addToHistory st m).consultations = st.consultations ∧
      (addToHistory st m).prescriptions = st.prescriptions) ∧
    ((clearHistory st).favorites = st.favorites ∧
      (clearHistory st).reminders = st.reminders ∧
      (clearHistory st).doctors = st.doctors ∧
      (clearHistory st).consultations = st.consultations ∧
      (clearHistory st).prescriptions = st.prescriptions) ∧
    ((toggleFavorite st m).searchHistory = st.searchHistory ∧
      (toggleFavorite st m).reminders = st.reminders) ∧
    ((addReminder st r).searchHistory = st.searchHistory ∧
      (addReminder st r).favorites = st.favorites) ∧
    ((updateReminder st rid u).searchHistory = st.searchHistory ∧
      (updateReminder st rid u).favorites = st.favorites) ∧
    ((deleteReminder st rid).searchHistory = st.searchHistory ∧
      (deleteReminder st rid).favorites = st.favorites) := by
  refine ⟨⟨rfl, rfl, rfl, rfl, rfl⟩, ⟨rfl, rfl, rfl, rfl, rfl⟩, ?_,
    ⟨rfl, rfl⟩, ⟨rfl, rfl⟩, ⟨rfl, rfl⟩⟩
  unfold toggleFavorite
  split
  · exact ⟨rfl, rfl⟩
  · exact ⟨rfl, rfl⟩

/-! ## Claims about hydration -/

/-- C7 counterexample: with the `theme` key readable (it decodes to `true`)
and the `favorites` key present but corrupt, `hydrate` completes without
raising but loads nothing — `isDarkMode` stays at its default `false`. This
refutes per-key isolation: a failing key prevents every other readable key
from being loaded. -/
theorem hydrate_isolation_cx :
    parseKey litDecoders.decodeBool (some "true") false = some true ∧
    (hydrate litDecoders { theme := some "true", favorites := some "###" }
        initialStoreState).isDarkMode = false := by
  decide

/-- C7 (amended): `hydrate` never raises: it either applies the single `set`
with every key's decoded-or-default value or, when any present key fails to
decode, leaves the state entirely unchanged — defaults stand in for every
key, not only the failing one. A missing `favorites` key alone is tolerated
per key: the applied `set` carries the empty favorites default. -/
theorem hydrate_resilience (d : JsonDecoders) (raw : RawStorage) (st : StoreState) :
    (hydrateFields d raw = none → hydrate d raw st = st) ∧
    (∀ f, hydrateFields d raw = some f →
      hydrate d raw st
        = { st with isDarkMode := f.isDarkMode
                    searchHistory := f.searchHistory
                    favorites := f.favorites
                    reminders := f.reminders
                    currentUser := f.currentUser
                    doctors := f.doctors
                    consultations := f.consultations
                    prescriptions := f.prescriptions } ∧
      (raw.favorites = none → f.favorites = [])) := by
  constructor
  · intro h
    unfold hydrate
    rw [h]
  · intro f hf
    refine ⟨by unfold hydrate; rw [hf], ?_⟩
    intro hfav
    unfold hydrateFields at hf
    rw [hfav] at hf
    simp only [Option.bind_eq_some, parseKey] at hf
    obtain ⟨a1, h1, a2, h2, a3, h3, a4, h4, a5, h5, a6, h6, a7, h7, a8, h8, hf⟩ := hf
    injection h3 with h3
    injection hf with hf
    rw [← hf]
    exact h3.symm

/-- Witness for C7 (amended) at a concrete store: `favorites` absent,
`theme` readable — hydration applies the set with empty favorites and the
decoded theme. -/
theorem hydrate_resilience_witness :
    hydrate litDecoders { theme := some "true" } initialStoreState
      = { initialStoreState with isDarkMode := true } ∧
    (({ isDarkMode := true, searchHistory := [], favorites := [], reminders := [],
        currentUser := none, doctors := [], consultations := [],
        prescriptions := [] } : HydratedFields)).favorites = [] := by
  have h := (hydrate_resilience litDecoders { theme := some "true" } initialStoreState).2
    { isDarkMode := true, searchHistory := [], favorites := [], reminders := [],
      currentUser := none, doctors := [], consultations := [], prescriptions := [] }
    (by decide)
  exact ⟨h.1, h.2 rfl⟩

/-! ## Claims about consultation status updates -/

/-- The state `updateConsultationStatus` produces when sending the cancelled
consultation back to `scheduled`. -/
def demoRescheduled : RemoteState :=
  { availability := [],
    consultations := [{ demoCancelled with status := ConsultationStatus.scheduled }] }

/-- C8 counterexample: `updateConsultationStatus` carries no transition
guard — invoked with status `scheduled` on the already-cancelled
consultation `c1`, it succeeds and `c1` is subsequently observed with
status `scheduled`, refuting terminality under the claim's own operation
set (`updateConsultationStatus` with any status value). -/
theorem status_terminality_cx :
    statusOf demoRemoteCancelled "c1" = some ConsultationStatus.cancelled ∧
    updateConsultationStatus demoRemoteCancelled "c1" ConsultationStatus.scheduled
      = Except.ok demoRescheduled ∧
    statusOf demoRescheduled "c1" = some ConsultationStatus.scheduled := by
  decide

theorem find_map_status (l : List Consultation) (cid' : String)
    (status : ConsultationStatus) (cid : String) :
    ((l.map (fun c => if c.id == cid' then { c with status := status } else c)).find?
        (fun c => c.id == cid))
      = (l.find? (fun c => c.id == cid)).map
          (fun c => if c.id == cid' then { c with status := status } else c) := by
  induction l with
  | nil => simp
  | cons c rest ih =>
    have hid : ((if c.id == cid' then { c with status := status } else c).id == cid)
        = (c.id == cid) := by
      split
      · rfl
      · rfl
    simp only [List.map_cons, List.find?_cons, hid]
    cases h : (c.id == cid) with
    | false => simpa using ih
    | true => simp

/-- C8 (amended): `updateConsultationStatus` applies any status
unconditionally, so it can return a terminal consultation to `scheduled`
(see the counterexample); restricted to `cancelConsultation` — the only
status-changing operation the app's flows drive besides the raw setter — a
consultation observed `cancelled` or `completed` is never later observed
`scheduled` or `ongoing`. -/
theorem cancel_preserves_terminal (st : RemoteState) (cid : String)
    (cids : List String)
    (h : statusOf st cid = some ConsultationStatus.cancelled
        ∨ statusOf st cid = some ConsultationStatus.completed) :
    statusOf (runCancels st cids) cid = some ConsultationStatus.cancelled
      ∨ statusOf (runCancels st cids) cid = some ConsultationStatus.completed := by
  induction cids generalizing st with
  | nil => exact h
  | cons c' rest ih =>
    unfold runCancels
    cases hc : cancelConsultation st c' with
    | error e => exact ih st h
    | ok st2 =>
      apply ih st2
      have hupd : updateConsultationStatus st c' ConsultationStatus.cancelled
          = Except.ok st2 := by
        unfold cancelConsultation at hc
        cases hu : updateConsultationStatus st c' ConsultationStatus.cancelled with
        | ok s =>
          rw [hu] at hc
          injection hc with h2
          rw [h2]
        | error e =>
          rw [hu] at hc
          cases hc
      unfold updateConsultationStatus at hupd
      split at hupd
      · injection hupd with h2
        unfold statusOf at h ⊢
        rw [← h2]
        rw [find_map_status]
        cases hfind : st.consultations.find? (fun c => c.id == cid) with
        | none =>
          rw [hfind] at h
          simp at h
        | some c0 =>
          rw [hfind] at h
          simp only [Option.map_some'] at h ⊢
          by_cases hceq : (c0.id == c') = true
          · left
            simp [hceq]
          · simp only [hceq, if_false]
            simpa using h
      · cases hupd

/-- Witness for C8 (amended): cancelling the already-cancelled `c1` keeps it
in a terminal status. -/
theorem cancel_preserves_terminal_witness :
    statusOf (runCancels demoRemoteCancelled ["c1"]) "c1"
        = some ConsultationStatus.cancelled
      ∨ statusOf (runCancels demoRemoteCancelled ["c1"]) "c1"
        = some ConsultationStatus.completed :=
  cancel_preserves_terminal demoRemoteCancelled "c1" ["c1"] (by decide)

/-! ## Supporting lemmas: the booking transaction -/

theorem bookSlots_of_booked (slots : List TimeSlot) (stt cid : String)
    (s : TimeSlot) (hf : firstSlotWith slots stt = some s) (hb : s.isBooked = true) :
    bookSlots slots stt cid = Except.error slotAlreadyBookedMsg := by
  induction slots with
  | nil => simp [firstSlotWith] at hf
  | cons t rest ih =>
    unfold firstSlotWith at hf ih
    unfold bookSlots
    cases ht : (t.startTime == stt) with
    | true =>
      simp only [List.find?_cons, ht] at hf
      injection hf with hf
      subst hf
      simp [hb]
    | false =>
      simp only [List.find?_cons, ht] at hf
      rw [if_neg (by simp)]
      rw [ih hf]

theorem bookSlots_ok_first (slots : List TimeSlot) (stt cid : String)
    (slots2 : List TimeSlot) (h : bookSlots slots stt cid = Except.ok slots2) :
    ∃ s, firstSlotWith slots stt = some s ∧ s.isBooked = false ∧
      firstSlotWith slots2 stt
        = some { s with isBooked := true, consultationId := some cid } := by
  induction slots generalizing slots2 with
  | nil => simp [bookSlots] at h
  | cons t rest ih =>
    unfold bookSlots at h
    cases ht : (t.startTime == stt) with
    | true =>
      rw [ht] at h
      simp only [if_true] at h
      cases hb : t.isBooked with
      | true =>
        rw [hb] at h
        simp at h
      | false =>
        rw [hb] at h
        simp only [Bool.false_eq_true, if_false, Except.ok.injEq] at h
        refine ⟨t, ?_, hb, ?_⟩
        · unfold firstSlotWith
          exact List.find?_cons_of_pos _ ht
        · rw [← h]
          unfold firstSlotWith
          exact List.find?_cons_of_pos _ (by simpa using ht)
    | false =>
      rw [ht] at h
      simp only [Bool.false_eq_true, if_false] at h
      cases hr : bookSlots rest stt cid with
      | error e =>
        rw [hr] at h
        cases h
      | ok r =>
        rw [hr] at h
        simp only [Except.ok.injEq] at h
        obtain ⟨s, hf, hb, hf2⟩ := ih r hr
        refine ⟨s, ?_, hb, ?_⟩
        · unfold firstSlotWith at hf ⊢
          rw [List.find?_cons_of_neg _ (by simp [ht])]
          exact hf
        · rw [← h]
          unfold firstSlotWith at hf2 ⊢
          rw [List.find?_cons_of_neg _ (by simp [ht])]
          exact hf2

theorem bookSlots_ok_startTimes (slots : List TimeSlot) (stt cid : String)
    (slots2 : List TimeSlot) (h : bookSlots slots stt cid = Except.ok slots2) :
    slots2.map TimeSlot.startTime = slots.map TimeSlot.startTime := by
  induction slots generalizing slots2 with
  | nil => simp [bookSlots] at h
  | cons t rest ih =>
    unfold bookSlots at h
    cases ht : (t.startTime == stt) with
    | true =>
      rw [ht] at h
      simp only [if_true] at h
      cases hb : t.isBooked with
      | true =>
        rw [hb] at h
        simp at h
      | false =>
        rw [hb] at h
        simp only [Bool.false_eq_true, if_false, Except.ok.injEq] at h
        rw [← h]
        simp
    | false =>
      rw [ht] at h
      simp only [Bool.false_eq_true, if_false] at h
      cases hr : bookSlots rest stt cid with
      | error e =>
        rw [hr] at h
        cases h
      | ok r =>
        rw [hr] at h
        simp only [Except.ok.injEq] at h
        rw [← h]
        simp [ih r hr]

theorem bookSlots_err_elim (slots : List TimeSlot) (stt cid : String) (e : String)
    (h : bookSlots slots stt cid = Except.error e) :
    (e = slotAlreadyBookedMsg ∧ ∃ s, firstSlotWith slots stt = some s ∧ s.isBooked = true) ∨
    (e = slotNotFoundMsg ∧ firstSlotWith slots stt = none) := by
  induction slots with
  | nil =>
    simp only [bookSlots, Except.error.injEq] at h
    exact Or.inr ⟨h.symm, rfl⟩
  | cons t rest ih =>
    unfold bookSlots at h
    cases ht : (t.startTime == stt) with
    | true =>
      rw [ht] at h
      simp only [if_true] at h
      cases hb : t.isBooked with
      | true =>
        rw [hb] at h
        simp only [if_true, Except.error.injEq] at h
        refine Or.inl ⟨h.symm, t, ?_, hb⟩
        unfold firstSlotWith
        exact List.find?_cons_of_pos _ ht
      | false =>
        rw [hb] at h
        simp at h
    | false =>
      rw [ht] at h
      simp only [Bool.false_eq_true, if_false] at h
      cases hr : bookSlots rest stt cid with
      | ok r =>
        rw [hr] at h
        cases h
      | error e0 =>
        rw [hr] at h
        injection h with h
        subst h
        rcases ih hr with ⟨he, s, hf, hb⟩ | ⟨he, hf⟩
        · refine Or.inl ⟨he, s, ?_, hb⟩
          unfold firstSlotWith at hf ⊢
          rw [List.find?_cons_of_neg _ (by simp [ht])]
          exact hf
        · refine Or.inr ⟨he, ?_⟩
          unfold firstSlotWith at hf ⊢
          rw [List.find?_cons_of_neg _ (by simp [ht])]
          exact hf

theorem find_setAvailability (l : List (String × DoctorAvailability))
    (docId : String) (av : DoctorAvailability)
    (h : (l.find? (fun kv => kv.1 == docId)).isSome = true) :
    (setAvailability l docId av).find? (fun kv => kv.1 == docId)
      = some (docId, av) := by
  induction l with
  | nil => simp at h
  | cons kv rest ih =>
    unfold setAvailability
    cases hk : (kv.1 == docId) with
    | true =>
      rw [if_pos rfl]
      exact List.find?_cons_of_pos _ (by simp)
    | false =>
      rw [if_neg (by simp)]
      rw [List.find?_cons_of_neg _ (by simp [hk])]
      apply ih
      simp only [List.find?_cons, hk] at h
      exact h

/-- Data-model well-formedness of one availability record: the slot sequence
carries pairwise distinct start times (slots are addressed by start time). -/
def timesNodupAt (st : RemoteState) (docId : String) : Prop :=
  ∀ av, lookupAvailability st docId = some av →
    (av.slots.map TimeSlot.startTime).Nodup

instance (st : RemoteState) (docId : String) : Decidable (timesNodupAt st docId) :=
  match h : lookupAvailability st docId with
  | none =>
    Decidable.isTrue (by
      intro av hav
      rw [h] at hav
      cases hav)
  | some av0 =>
    if hn : (av0.slots.map TimeSlot.startTime).Nodup then
      Decidable.isTrue (by
        intro av hav
        rw [h] at hav
        injection hav with hav
        rw [← hav]
        exact hn)
    else
      Decidable.isFalse (fun hc => hn (hc av0 h))

theorem bookTransaction_ok_elim (st : RemoteState) (bd : BookingData)
    (slot : TimeSlot) (dt cid : String) (ok : Bool) (st2 : RemoteState)
    (h : bookTransaction st bd slot dt cid ok = Except.ok st2) :
    ok = true ∧
    ∃ av slots2,
      lookupAvailability st (availabilityDocId bd.doctorId dt) = some av ∧
      bookSlots av.slots slot.startTime cid = Except.ok slots2 ∧
      st2 = { availability :=
                setAvailability st.availability (availabilityDocId bd.doctorId dt)
                  { av with slots := slots2 }
              consultations :=
                setConsultationDoc st.consultations (mkConsultation bd cid) } := by
  unfold bookTransaction at h
  cases hl : lookupAvailability st (availabilityDocId bd.doctorId dt) with
  | none =>
    rw [hl] at h
    simp at h
  | some av =>
    rw [hl] at h
    simp only [] at h
    cases hbs : bookSlots av.slots slot.startTime cid with
    | error e0 =>
      rw [hbs] at h
      simp at h
    | ok slots2 =>
      rw [hbs] at h
      simp only [] at h
      cases ok with
      | false => simp at h
      | true =>
        rw [if_pos rfl] at h
        injection h with h
        exact ⟨rfl, av, slots2, rfl, hbs, h.symm⟩

theorem bookTransaction_err_elim (st : RemoteState) (bd : BookingData)
    (slot : TimeSlot) (dt cid : String) (ok : Bool) (e : String)
    (h : bookTransaction st bd slot dt cid ok = Except.error e) :
    (e = slotAlreadyBookedMsg
      ↔ slotBooked st bd.doctorId dt slot.startTime = true) ∧
    (e = availabilityNotFoundMsg ∨ e = slotNotFoundMsg ∨
      e = slotAlreadyBookedMsg ∨ e = commitFailedMsg) := by
  unfold bookTransaction at h
  cases hl : lookupAvailability st (availabilityDocId bd.doctorId dt) with
  | none =>
    rw [hl] at h
    simp only [] at h
    injection h with h
    subst h
    refine ⟨⟨fun habs => absurd habs (by decide), fun hb => ?_⟩, Or.inl rfl⟩
    unfold slotBooked at hb
    rw [hl] at hb
    simp at hb
  | some av =>
    rw [hl] at h
    simp only [] at h
    cases hbs : bookSlots av.slots slot.startTime cid with
    | error e0 =>
      rw [hbs] at h
      simp only [] at h
      injection h with h
      subst h
      rcases bookSlots_err_elim av.slots slot.startTime cid _ hbs with
        ⟨he, s, hf, hsb⟩ | ⟨he, hf⟩
      · subst he
        refine ⟨⟨fun _ => ?_, fun _ => rfl⟩, Or.inr (Or.inr (Or.inl rfl))⟩
        unfold slotBooked
        rw [hl]
        simp only []
        rw [hf]
        exact hsb
      · subst he
        refine ⟨⟨fun habs => absurd habs (by decide), fun hb => ?_⟩,
          Or.inr (Or.inl rfl)⟩
        unfold slotBooked at hb
        rw [hl] at hb
        simp only [] at hb
        rw [hf] at hb
        simp at hb
    | ok slots2 =>
      rw [hbs] at h
      simp only [] at h
      cases ok with
      | true =>
        rw [if_pos rfl] at h
        cases h
      | false =>
        rw [if_neg (by simp)] at h
        injection h with h
        subst h
        obtain ⟨s, hf, hsb, hf2⟩ :=
          bookSlots_ok_first av.slots slot.startTime cid slots2 hbs
        refine ⟨⟨fun habs => absurd habs (by decide), fun hb => ?_⟩,
          Or.inr (Or.inr (Or.inr rfl))⟩
        unfold slotBooked at hb
        rw [hl] at hb
        simp only [] at hb
        rw [hf] at hb
        simp only [] at hb
        rw [hsb] at hb
        cases hb

theorem bookConsultation_ok_elim (st : RemoteState) (bd : BookingData)
    (slot : TimeSlot) (dt cid : String) (ok : Bool) (st2 : RemoteState)
    (c : Consultation)
    (h : bookConsultation st bd slot dt cid ok = Except.ok (st2, c)) :
    bookTransaction st bd slot dt cid ok = Except.ok st2
      ∧ c = mkConsultation bd cid := by
  unfold bookConsultation at h
  cases htx : bookTransaction st bd slot dt cid ok with
  | ok s =>
    rw [htx] at h
    simp only [Except.ok.injEq, Prod.mk.injEq] at h
    exact ⟨by rw [h.1], h.2.symm⟩
  | error e =>
    rw [htx] at h
    simp only [] at h
    split at h <;> cases h

theorem book_ok_state (st : RemoteState) (bd : BookingData) (slot : TimeSlot)
    (dt cid : String) (ok : Bool) (st2 : RemoteState) (c : Consultation)
    (h : bookConsultation st bd slot dt cid ok = Except.ok (st2, c)) :
    ∃ av slots2 s,
      lookupAvailability st (availabilityDocId bd.doctorId dt) = some av ∧
      lookupAvailability st2 (availabilityDocId bd.doctorId dt)
        = some { av with slots := slots2 } ∧
      slots2.map TimeSlot.startTime = av.slots.map TimeSlot.startTime ∧
      firstSlotWith av.slots slot.startTime = some s ∧
      s.isBooked = false ∧
      firstSlotWith slots2 slot.startTime
        = some { s with isBooked := true, consultationId := some cid } ∧
      st2.consultations = setConsultationDoc st.consultations (mkConsultation bd cid) ∧
      c = mkConsultation bd cid := by
  obtain ⟨htx, hc⟩ := bookConsultation_ok_elim st bd slot dt cid ok st2 c h
  obtain ⟨hok, av, slots2, hl, hbs, hst2⟩ :=
    bookTransaction_ok_elim st bd slot dt cid ok st2 htx
  obtain ⟨s, hf, hb, hf2⟩ := bookSlots_ok_first av.slots slot.startTime cid slots2 hbs
  refine ⟨av, slots2, s, hl, ?_, bookSlots_ok_startTimes av.slots slot.startTime cid slots2 hbs,
    hf, hb, hf2, by rw [hst2], hc⟩
  have hsome : (st.availability.find?
      (fun kv => kv.1 == availabilityDocId bd.doctorId dt)).isSome = true := by
    unfold lookupAvailability at hl
    cases hfind : st.availability.find? (fun kv => kv.1 == availabilityDocId bd.doctorId dt) with
    | none =>
      rw [hfind] at hl
      simp at hl
    | some kv =>
      simp
  rw [hst2]
  unfold lookupAvailability
  simp only []
  rw [find_setAvailability st.availability (availabilityDocId bd.doctorId dt)
    { av with slots := slots2 } hsome]
  simp

theorem book_ok_slotBooked (st : RemoteState) (bd : BookingData) (slot : TimeSlot)
    (dt cid : String) (ok : Bool) (st2 : RemoteState) (c : Consultation)
    (h : bookConsultation st bd slot dt cid ok = Except.ok (st2, c)) :
    slotBooked st2 bd.doctorId dt slot.startTime = true := by
  obtain ⟨av, slots2, s, hl, hl2, hst, hf, hb, hf2, hcons, hc⟩ :=
    book_ok_state st bd slot dt cid ok st2 c h
  unfold slotBooked
  rw [hl2]
  simp only []
  rw [hf2]

theorem booked_slot_fails (st : RemoteState) (bd : BookingData) (slot : TimeSlot)
    (dt cid : String) (ok : Bool)
    (hb : slotBooked st bd.doctorId dt slot.startTime = true) :
    bookConsultation st bd slot dt cid ok = Except.error slotAlreadyBookedMsg := by
  unfold slotBooked at hb
  cases hl : lookupAvailability st (availabilityDocId bd.doctorId dt) with
  | none =>
    rw [hl] at hb
    simp at hb
  | some av =>
    rw [hl] at hb
    simp only [] at hb
    cases hf : firstSlotWith av.slots slot.startTime with
    | none =>
      rw [hf] at hb
      simp at hb
    | some s =>
      rw [hf] at hb
      simp only [] at hb
      have hbs := bookSlots_of_booked av.slots slot.startTime cid s hf hb
      unfold bookConsultation bookTransaction
      rw [hl]
      simp only []
      rw [hbs]
      simp

theorem successCount_cons_error (e : String) (rs : List (Except String Consultation)) :
    successCount (Except.error e :: rs) = successCount rs := by
  simp [successCount, List.filter_cons, isOkResult]

theorem successCount_cons_ok (c : Consultation) (rs : List (Except String Consultation)) :
    successCount (Except.ok c :: rs) = successCount rs + 1 := by
  simp [successCount, List.filter_cons, isOkResult]

theorem successCount_map_error (l : List Attempt) (msg : String) :
    successCount (l.map fun _ => (Except.error msg : Except String Consultation)) = 0 := by
  induction l with
  | nil => rfl
  | cons a rest ih =>
    rw [List.map_cons, successCount_cons_error]
    exact ih

theorem runAttempts_all_booked (d dt stt : String) (as : List Attempt) :
    ∀ st : RemoteState, slotBooked st d dt stt = true →
      (∀ a ∈ as, attemptTargets a d dt stt) →
      runAttempts st as
        = (st, as.map fun _ => Except.error slotAlreadyBookedMsg) := by
  induction as with
  | nil =>
    intro st hb hall
    rfl
  | cons a rest ih =>
    intro st hb hall
    obtain ⟨h1, h2, h3⟩ := hall a (List.mem_cons_self a rest)
    have hfail : bookConsultation st a.bd a.selectedSlot a.selectedDate a.cid a.commitOk
        = Except.error slotAlreadyBookedMsg := by
      apply booked_slot_fails
      rw [h1, h2, h3]
      exact hb
    unfold runAttempts
    rw [hfail]
    simp only []
    rw [ih st hb (fun x hx => hall x (List.mem_cons_of_mem a hx))]
    simp

theorem successCount_le_one (d dt stt : String) (as : List Attempt) :
    ∀ st : RemoteState, (∀ a ∈ as, attemptTargets a d dt stt) →
      successCount (runAttempts st as).2 ≤ 1 := by
  induction as with
  | nil =>
    intro st _
    simp [runAttempts, successCount]
  | cons a rest ih =>
    intro st hall
    unfold runAttempts
    cases hres : bookConsultation st a.bd a.selectedSlot a.selectedDate a.cid a.commitOk with
    | error e =>
      simp only []
      rw [successCount_cons_error]
      exact ih st (fun x hx => hall x (List.mem_cons_of_mem a hx))
    | ok p =>
      obtain ⟨st2, c⟩ := p
      simp only []
      obtain ⟨h1, h2, h3⟩ := hall a (List.mem_cons_self a rest)
      have hb : slotBooked st2 d dt stt = true := by
        have hbb := book_ok_slotBooked st a.bd a.selectedSlot a.selectedDate
          a.cid a.commitOk st2 c hres
        rw [h1, h2, h3] at hbb
        exact hbb
      rw [runAttempts_all_booked d dt stt rest st2 hb
        (fun x hx => hall x (List.mem_cons_of_mem a hx))]
      simp only []
      rw [successCount_cons_ok, successCount_map_error]

theorem post_success_all_blocked (d dt stt : String) (as : List Attempt) :
    ∀ st : RemoteState, (∀ a ∈ as, attemptTargets a d dt stt) →
      ∀ pre c post, (runAttempts st as).2 = pre ++ Except.ok c :: post →
        ∀ r ∈ post, r = Except.error slotAlreadyBookedMsg := by
  induction as with
  | nil =>
    intro st _ pre c post h r hr
    exact absurd h (by simp [runAttempts])
  | cons a rest ih =>
    intro st hall pre c post h r hr
    revert h
    unfold runAttempts
    cases hres : bookConsultation st a.bd a.selectedSlot a.selectedDate a.cid a.commitOk with
    | ok p =>
      obtain ⟨st2, c0⟩ := p
      obtain ⟨h1, h2, h3⟩ := hall a (List.mem_cons_self a rest)
      have hb : slotBooked st2 d dt stt = true := by
        have hbb := book_ok_slotBooked st a.bd a.selectedSlot a.selectedDate
          a.cid a.commitOk st2 c0 hres
        rw [h1, h2, h3] at hbb
        exact hbb
      simp only []
      rw [runAttempts_all_booked d dt stt rest st2 hb
        (fun x hx => hall x (List.mem_cons_of_mem a hx))]
      simp only []
      intro h
      cases pre with
      | nil =>
        simp only [List.nil_append, List.cons.injEq] at h
        rw [← h.2] at hr
        obtain ⟨x, _, hxe⟩ := List.mem_map.mp hr
        exact hxe.symm
      | cons p0 pre2 =>
        simp only [List.cons_append, List.cons.injEq] at h
        have hmem : Except.ok c ∈ rest.map
            fun _ => (Except.error slotAlreadyBookedMsg : Except String Consultation) := by
          rw [h.2]
          exact List.mem_append_right _ (List.mem_cons_self _ _)
        obtain ⟨x, _, hxe⟩ := List.mem_map.mp hmem
        exact absurd hxe (by simp)
    | error e =>
      simp only []
      intro h
      cases pre with
      | nil =>
        simp only [List.nil_append, List.cons.injEq] at h
        exact absurd h.1 (by simp)
      | cons p0 pre2 =>
        simp only [List.cons_append, List.cons.injEq] at h
        exact ih st (fun x hx => hall x (List.mem_cons_of_mem a hx)) pre2 c post h.2 r hr

theorem setConsultationDoc_nodup (cs : List Consultation) (c : Consultation)
    (h : (cs.map Consultation.id).Nodup) :
    ((setConsultationDoc cs c).map Consultation.id).Nodup := by
  unfold setConsultationDoc
  simp only [List.map_cons, List.nodup_cons]
  constructor
  · intro hmem
    obtain ⟨x, hx, hxe⟩ := List.mem_map.mp hmem
    have hne := (List.mem_filter.mp hx).2
    simp only [bne_iff_ne, ne_eq] at hne
    exact hne hxe
  · have hsub : (cs.filter (fun x => x.id != c.id)).Sublist cs := List.filter_sublist _
    exact (hsub.map Consultation.id).nodup h

theorem book_ok_preserves (st : RemoteState) (bd : BookingData) (slot : TimeSlot)
    (dt cid : String) (ok : Bool) (st2 : RemoteState) (c : Consultation)
    (h : bookConsultation st bd slot dt cid ok = Except.ok (st2, c)) :
    ((st.consultations.map Consultation.id).Nodup →
      (st2.consultations.map Consultation.id).Nodup) ∧
    (timesNodupAt st (availabilityDocId bd.doctorId dt) →
      timesNodupAt st2 (availabilityDocId bd.doctorId dt)) := by
  obtain ⟨av, slots2, s, hl, hl2, hst, hf, hb, hf2, hcons, hc⟩ :=
    book_ok_state st bd slot dt cid ok st2 c h
  constructor
  · intro hn
    rw [hcons]
    exact setConsultationDoc_nodup st.consultations (mkConsultation bd cid) hn
  · intro ht av2 hav2
    rw [hl2] at hav2
    injection hav2 with hav2
    rw [← hav2]
    simp only []
    rw [hst]
    exact ht av hl

theorem runAttempts_preserves (d dt stt : String) (as : List Attempt) :
    ∀ st : RemoteState, (∀ a ∈ as, attemptTargets a d dt stt) →
      (st.consultations.map Consultation.id).Nodup →
      timesNodupAt st (availabilityDocId d dt) →
      ((runAttempts st as).1.consultations.map Consultation.id).Nodup ∧
      timesNodupAt (runAttempts st as).1 (availabilityDocId d dt) := by
  induction as with
  | nil =>
    intro st _ hn ht
    exact ⟨hn, ht⟩
  | cons a rest ih =>
    intro st hall hn ht
    unfold runAttempts
    cases hres : bookConsultation st a.bd a.selectedSlot a.selectedDate a.cid a.commitOk with
    | error e =>
      simp only []
      exact ih st (fun x hx => hall x (List.mem_cons_of_mem a hx)) hn ht
    | ok p =>
      obtain ⟨st2, c0⟩ := p
      simp only []
      obtain ⟨h1, h2, h3⟩ := hall a (List.mem_cons_self a rest)
      have hpres := book_ok_preserves st a.bd a.selectedSlot a.selectedDate
        a.cid a.commitOk st2 c0 hres
      rw [h1, h2] at hpres
      exact ih st2 (fun x hx => hall x (List.mem_cons_of_mem a hx)) (hpres.1 hn) (hpres.2 ht)

theorem holders_unique (st : RemoteState) (d dt stt : String)
    (hids : (st.consultations.map Consultation.id).Nodup)
    (ht : timesNodupAt st (availabilityDocId d dt)) :
    ∀ c1 c2, holdsSlot st c1 d dt stt → holdsSlot st c2 d dt stt → c1 = c2 := by
  rintro c1 c2 ⟨hm1, av, hav, s1, hs1, ht1, hb1, hc1⟩ ⟨hm2, av2, hav2, s2, hs2, ht2, hb2, hc2⟩
  rw [hav] at hav2
  injection hav2 with hav2
  subst hav2
  have hnd := ht av hav
  have hseq : s1 = s2 := List.inj_on_of_nodup_map hnd hs1 hs2 (by rw [ht1, ht2])
  rw [hseq] at hc1
  rw [hc1] at hc2
  injection hc2 with hid
  exact List.inj_on_of_nodup_map hids hm1 hm2 hid

/-! ## Claims about the Booking Transaction Protocol -/

/-- C1: for every sequence of `bookConsultation` attempts against the same
`(doctorId, date, startTime)` slot executed atomically in turn, at most one
attempt succeeds, every attempt after a successful one fails with the
verbatim slot-already-booked error, and no reachable state holds two
distinct consultations on that slot (given the data-model invariants:
consultation ids are unique and the availability record's slot start times
are pairwise distinct). -/
theorem no_double_booking (st : RemoteState) (d dt stt : String)
    (as : List Attempt)
    (hall : ∀ a ∈ as, attemptTargets a d dt stt)
    (hids : (st.consultations.map Consultation.id).Nodup)
    (htimes : timesNodupAt st (availabilityDocId d dt)) :
    successCount (runAttempts st as).2 ≤ 1 ∧
    (∀ pre c post, (runAttempts st as).2 = pre ++ Except.ok c :: post →
      ∀ r ∈ post, r = Except.error slotAlreadyBookedMsg) ∧
    ∀ c1 c2, holdsSlot (runAttempts st as).1 c1 d dt stt →
      holdsSlot (runAttempts st as).1 c2 d dt stt → c1 = c2 := by
  obtain ⟨hn, ht⟩ := runAttempts_preserves d dt stt as st hall hids htimes
  exact ⟨successCount_le_one d dt stt as st hall,
    post_success_all_blocked d dt stt as st hall,
    holders_unique (runAttempts st as).1 d dt stt hn ht⟩

/-- Witness for C1 at the spec's concrete scenario: patient A then patient B
book the 09:00 slot of doctor `d1` on `2025-11-29`. -/
theorem no_double_booking_witness :
    successCount (runAttempts demoRemote demoAttempts).2 ≤ 1 ∧
    (∀ pre c post, (runAttempts demoRemote demoAttempts).2
        = pre ++ Except.ok c :: post →
      ∀ r ∈ post, r = Except.error slotAlreadyBookedMsg) ∧
    ∀ c1 c2, holdsSlot (runAttempts demoRemote demoAttempts).1 c1 "d1" "2025-11-29" "09:00" →
      holdsSlot (runAttempts demoRemote demoAttempts).1 c2 "d1" "2025-11-29" "09:00" →
        c1 = c2 :=
  no_double_booking demoRemote "d1" "2025-11-29" "09:00" demoAttempts
    (by decide) (by decide) (by decide)

/-- The 09:00 slot after patient A's booking committed. -/
def demoBookedSlot : TimeSlot :=
  { startTime := "09:00", endTime := "09:30", isBooked := true,
    consultationId := some "cons1" }

/-- The remote state after patient A's booking committed. -/
def demoBookedRemote : RemoteState :=
  { availability := [("d1_2025-11-29", { demoAvailability with slots := [demoBookedSlot] })]
    consultations := [mkConsultation demoBooking "cons1"] }

/-- C2: `bookConsultation` is all-or-nothing: on any failure the remote
state is unchanged — in particular a slot unbooked beforehand is still
unbooked and no consultation document with the attempt's id exists — and on
success the booked slot (carrying the consultation's id) and the new
consultation document persist together. -/
theorem booking_atomicity (st : RemoteState) (bd : BookingData) (slot : TimeSlot)
    (dt cid : String) (ok : Bool)
    (hfresh : cid ∉ st.consultations.map Consultation.id) :
    (∀ e, bookConsultation st bd slot dt cid ok = Except.error e →
      bookResultState st bd slot dt cid ok = st ∧
      cid ∉ (bookResultState st bd slot dt cid ok).consultations.map Consultation.id ∧
      (slotBooked st bd.doctorId dt slot.startTime = false →
        slotBooked (bookResultState st bd slot dt cid ok) bd.doctorId dt slot.startTime
          = false)) ∧
    (∀ st2 c, bookConsultation st bd slot dt cid ok = Except.ok (st2, c) →
      bookResultState st bd slot dt cid ok = st2 ∧
      c ∈ st2.consultations ∧ c.id = cid ∧
      ∃ av2 s, lookupAvailability st2 (availabilityDocId bd.doctorId dt) = some av2 ∧
        firstSlotWith av2.slots slot.startTime = some s ∧
        s.isBooked = true ∧ s.consultationId = some cid) := by
  constructor
  · intro e he
    have hrs : bookResultState st bd slot dt cid ok = st := by
      unfold bookResultState
      rw [he]
    refine ⟨hrs, ?_, ?_⟩
    · rw [hrs]
      exact hfresh
    · intro hb
      rw [hrs]
      exact hb
  · intro st2 c hok
    have hrs : bookResultState st bd slot dt cid ok = st2 := by
      unfold bookResultState
      rw [hok]
    obtain ⟨av, slots2, s, hl, hl2, hst, hf, hb0, hf2, hcons, hc⟩ :=
      book_ok_state st bd slot dt cid ok st2 c hok
    refine ⟨hrs, ?_, ?_, { av with slots := slots2 },
      { s with isBooked := true, consultationId := some cid }, hl2, hf2, rfl, rfl⟩
    · rw [hcons, hc]
      exact List.mem_cons_self _ _
    · rw [hc]
      rfl

/-- Witness for C2: the commit-refused attempt leaves the demo state
untouched; the committed attempt produces the booked state holding the new
consultation document. -/
theorem booking_atomicity_witness :
    bookResultState demoRemote demoBooking demoSlot "2025-11-29" "cons1" false
      = demoRemote ∧
    bookResultState demoRemote demoBooking demoSlot "2025-11-29" "cons1" true
      = demoBookedRemote ∧
    mkConsultation demoBooking "cons1" ∈ demoBookedRemote.consultations :=
  ⟨((booking_atomicity demoRemote demoBooking demoSlot "2025-11-29" "cons1" false
      (by decide)).1 bookingFailedMsg (by decide)).1,
   ((booking_atomicity demoRemote demoBooking demoSlot "2025-11-29" "cons1" true
      (by decide)).2 demoBookedRemote (mkConsultation demoBooking "cons1")
      (by decide)).1,
   ((booking_atomicity demoRemote demoBooking demoSlot "2025-11-29" "cons1" true
      (by decide)).2 demoBookedRemote (mkConsultation demoBooking "cons1")
      (by decide)).2.1⟩

/-- C3: every failing `bookConsultation` run surfaces either the verbatim
slot-already-booked message or the single generic retry message, and it
surfaces the verbatim message exactly when the requested slot's booked flag
was already set. -/
theorem booking_error_mapping (st : RemoteState) (bd : BookingData)
    (slot : TimeSlot) (dt cid : String) (ok : Bool) (e : String)
    (h : bookConsultation st bd slot dt cid ok = Except.error e) :
    (e = slotAlreadyBookedMsg ∨ e = bookingFailedMsg) ∧
    (e = slotAlreadyBookedMsg ↔ slotBooked st bd.doctorId dt slot.startTime = true) := by
  unfold bookConsultation at h
  cases htx : bookTransaction st bd slot dt cid ok with
  | ok s =>
    rw [htx] at h
    simp at h
  | error e0 =>
    rw [htx] at h
    simp only [] at h
    obtain ⟨hiff, hcases⟩ := bookTransaction_err_elim st bd slot dt cid ok e0 htx
    by_cases he0 : (e0 == slotAlreadyBookedMsg) = true
    · rw [if_pos he0] at h
      injection h with h
      subst h
      have heq : e0 = slotAlreadyBookedMsg := by simpa using he0
      exact ⟨Or.inl heq, heq ▸ hiff⟩
    · rw [if_neg he0] at h
      injection h with h
      subst h
      refine ⟨Or.inr rfl, ?_, ?_⟩
      · intro habs
        exact absurd habs (by decide)
      · intro hb
        exact absurd (hiff.mpr hb) (by simpa using he0)

/-- Witness for C3: patient B's attempt against the already-booked slot
fails with the verbatim message, which indeed characterizes the booked
flag. -/
theorem booking_error_mapping_witness :
    (slotAlreadyBookedMsg = slotAlreadyBookedMsg ∨ slotAlreadyBookedMsg = bookingFailedMsg) ∧
    (slotAlreadyBookedMsg = slotAlreadyBookedMsg
      ↔ slotBooked demoBookedRemote demoBooking2.doctorId "2025-11-29" demoSlot.startTime = true) :=
  booking_error_mapping demoBookedRemote demoBooking2 demoSlot "2025-11-29" "cons2"
    true slotAlreadyBookedMsg (by decide)

/-- C4: every successful `bookConsultation` returns a consultation with
status `scheduled`, duration 30, channel name `consultation_<id>`, and the
booking inputs copied verbatim; the matching slot of the availability
record is booked under that same id. -/
theorem booking_success_shape (st : RemoteState) (bd : BookingData)
    (slot : TimeSlot) (dt cid : String) (ok : Bool) (st2 : RemoteState)
    (c : Consultation)
    (h : bookConsultation st bd slot dt cid ok = Except.ok (st2, c)) :
    c.id = cid ∧ c.status = ConsultationStatus.scheduled ∧ c.duration = 30 ∧
    c.agoraChannelName = "consultation_" ++ c.id ∧
    c.patientId = bd.patientId ∧ c.patientName = bd.patientName ∧
    c.doctorId = bd.doctorId ∧ c.doctorName = bd.doctorName ∧
    c.doctorSpecialization = bd.doctorSpecialization ∧
    c.consultationFee = bd.consultationFee ∧
    c.scheduledTime = bd.scheduledTime ∧
    ∃ av2 s, lookupAvailability st2 (availabilityDocId bd.doctorId dt) = some av2 ∧
      firstSlotWith av2.slots slot.startTime = some s ∧ s.isBooked = true ∧
      s.consultationId = some c.id := by
  obtain ⟨av, slots2, s, hl, hl2, hst, hf, hb, hf2, hcons, hc⟩ :=
    book_ok_state st bd slot dt cid ok st2 c h
  subst hc
  exact ⟨rfl, rfl, rfl, rfl, rfl, rfl, rfl, rfl, rfl, rfl, rfl,
    { av with slots := slots2 },
    { s with isBooked := true, consultationId := some cid }, hl2, hf2, rfl, rfl⟩

/-- Witness for C4 at the concrete success of patient A's booking. -/
theorem booking_success_shape_witness :
    (mkConsultation demoBooking "cons1").id = "cons1" ∧
    (mkConsultation demoBooking "cons1").status = ConsultationStatus.scheduled ∧
    (mkConsultation demoBooking "cons1").duration = 30 ∧
    (mkConsultation demoBooking "cons1").agoraChannelName
      = "consultation_" ++ (mkConsultation demoBooking "cons1").id ∧
    (mkConsultation demoBooking "cons1").patientId = demoBooking.patientId ∧
    (mkConsultation demoBooking "cons1").patientName = demoBooking.patientName ∧
    (mkConsultation demoBooking "cons1").doctorId = demoBooking.doctorId ∧
    (mkConsultation demoBooking "cons1").doctorName = demoBooking.doctorName ∧
    (mkConsultation demoBooking "cons1").doctorSpecialization
      = demoBooking.doctorSpecialization ∧
    (mkConsultation demoBooking "cons1").consultationFee = demoBooking.consultationFee ∧
    (mkConsultation demoBooking "cons1").scheduledTime = demoBooking.scheduledTime ∧
    ∃ av2 s, lookupAvailability demoBookedRemote
        (availabilityDocId demoBooking.doctorId "2025-11-29") = some av2 ∧
      firstSlotWith av2.slots demoSlot.startTime = some s ∧ s.isBooked = true ∧
      s.consultationId = some (mkConsultation demoBooking "cons1").id :=
  booking_success_shape demoRemote demoBooking demoSlot "2025-11-29" "cons1" true
    demoBookedRemote (mkConsultation demoBooking "cons1") (by decide)

/-! ## Claims about the reminder scheduler -/

/-- C9 counterexample: the scheduler never inspects the status — handed the
cancelled consultation `c1` whose fire time is still in the future, it
schedules a reminder, refuting "in every other case no reminder is
scheduled". -/
theorem reminder_status_cx :
    demoCancelled.status = ConsultationStatus.cancelled ∧
    (scheduleConsultationReminder demoCancelled 0).isSome = true := by
  decide

/-- C9 (amended): a reminder is scheduled iff the fire time (scheduled time
minus one hour) is strictly in the future — the status is not checked by
the scheduler; along the app's only call path the consultation handed to
the scheduler is the value a successful booking returns, whose status is
always `scheduled`. -/
theorem reminder_schedule_iff (c : Consultation) (now : Int)
    (st : RemoteState) (bd : BookingData) (slot : TimeSlot) (dt cid : String)
    (ok : Bool) (st2 : RemoteState) (c2 : Consultation)
    (h : bookConsultation st bd slot dt cid ok = Except.ok (st2, c2)) :
    ((scheduleConsultationReminder c now).isSome ↔ now < c.scheduledTime - hourMs) ∧
    c2.status = ConsultationStatus.scheduled := by
  constructor
  · unfold scheduleConsultationReminder
    simp only []
    split
    · rename_i h2
      simp only [Option.isSome_some, true_iff]
      exact h2
    · rename_i h2
      simpa using h2
  · have hc := (bookConsultation_ok_elim st bd slot dt cid ok st2 c2 h).2
    rw [hc]
    rfl

/-- Witness for C9 (amended) at the cancelled consultation and patient A's
successful booking. -/
theorem reminder_schedule_iff_witness :
    ((scheduleConsultationReminder demoCancelled 0).isSome
      ↔ (0 : Int) < demoCancelled.scheduledTime - hourMs) ∧
    (mkConsultation demoBooking "cons1").status = ConsultationStatus.scheduled :=
  reminder_schedule_iff demoCancelled 0 demoRemote demoBooking demoSlot
    "2025-11-29" "cons1" true demoBookedRemote (mkConsultation demoBooking "cons1")
    (by decide)

end MediFind
